import Mathlib

/-!
# Verification of the zebra chain-state engine excerpt

Shallow embedding of the finalized-state batch construction, value-balance
arithmetic, transaction-hash display/parsing, read accessors and consensus
subsidy check of the repository, with theorems settling the specification
claims about them.

Machine integers are modelled as `Int`/`Nat` with explicit range checks where
the source checks ranges; fallible Rust functions returning `Result` are
modelled as `Except String`; RocksDB column families are modelled as explicit
key-to-value maps, and a `DiskWriteBatch` as per-column-family lists of
pending operations.
-/

namespace Zebra

/-! ## Amounts and value balances (`zebra-chain/src/value_balance.rs`)

The `Amount` type itself is not part of the excerpt; per the module doc of
`value_balance.rs`, "The `Amount` type is parameterized by a `Constraint`
implementation that declares the range of allowed values" and "arithmetic on
`Amount`s returns `Result`s".  We model an amount as an `Int` together with
the constraint under which it is being used, and each arithmetic operation
checks the constraint's range and fails outside it. -/

/-- One COIN in zatoshis (`Params::COIN` in `zebra-consensus/src/parameters/subsidy.rs`). -/
def COIN : Int := 100000000

/-- `MAX_MONEY` (`Params::MAX_MONEY` in `zebra-consensus/src/parameters/subsidy.rs`). -/
def MAX_MONEY : Int := 21000000 * COIN

/-- The two amount constraints used by the source: `NegativeAllowed`
(range `-MAX_MONEY..=MAX_MONEY`) and `NonNegative` (range `0..=MAX_MONEY`). -/
inductive AmountConstraint : Type
  | negativeAllowed : AmountConstraint
  | nonNegative : AmountConstraint
deriving DecidableEq

/-- Modelled from the spec: the valid range a `Constraint` declares for an amount. -/
def AmountConstraint.inRange : AmountConstraint → Int → Bool
  | .negativeAllowed, v => decide (-MAX_MONEY ≤ v) && decide (v ≤ MAX_MONEY)
  | .nonNegative, v => decide (0 ≤ v) && decide (v ≤ MAX_MONEY)

/-- Modelled from the spec: addition of two amounts under constraint `c`;
"arithmetic on `Amount`s returns `Result`s", failing when the result leaves
the constraint's range. -/
def amountAdd (c : AmountConstraint) (x y : Int) : Except String Int :=
  if c.inRange (x + y) then .ok (x + y) else .error "amount out of range"

/-- Modelled from the spec: subtraction of two amounts under constraint `c`,
failing when the result leaves the constraint's range. -/
def amountSub (c : AmountConstraint) (x y : Int) : Except String Int :=
  if c.inRange (x - y) then .ok (x - y) else .error "amount out of range"

/-- Modelled from the spec: `Amount::constrain`, re-checking a value against a
target constraint. -/
def amountConstrain (c : AmountConstraint) (v : Int) : Except String Int :=
  if c.inRange v then .ok v else .error "amount constraint violated"

/-- `ValueBalance` (`zebra-chain/src/value_balance.rs`): the four Zcash pools. -/
structure ValueBalance : Type where
  transparent : Int
  sprout : Int
  sapling : Int
  orchard : Int
deriving DecidableEq

/-- The all-zero value balance (`ValueBalance::zero`, used as
`unwrap_or_else(ValueBalance::zero)` default in `chain.rs`). -/
def ValueBalance.zero : ValueBalance := ⟨0, 0, 0, 0⟩

/-- Whether all four pools of a value balance lie in constraint `c`'s range
(the invariant Rust's `ValueBalance<C>` maintains by construction). -/
def ValueBalance.valid (c : AmountConstraint) (vb : ValueBalance) : Prop :=
  c.inRange vb.transparent = true ∧ c.inRange vb.sprout = true ∧
    c.inRange vb.sapling = true ∧ c.inRange vb.orchard = true

instance (c : AmountConstraint) (vb : ValueBalance) : Decidable (vb.valid c) := by
  unfold ValueBalance.valid; infer_instance

/-- `ValueBalance::remaining_transaction_value`
(`zebra-chain/src/value_balance.rs` lines 31–35):
`Ok((self.transparent - (self.sprout + self.sapling + self.orchard)?)?.constrain::<NonNegative>()?)`. -/
def ValueBalance.remaining_transaction_value (c : AmountConstraint) (vb : ValueBalance) :
    Except String Int := do
  let s1 ← amountAdd c vb.sprout vb.sapling
  let s2 ← amountAdd c s1 vb.orchard
  let d ← amountSub c vb.transparent s2
  amountConstrain .nonNegative d

/-- Modelled from the spec: `ValueBalance::add_block` (called by
`prepare_chain_value_pools_batch` in `zebra-state/.../zebra_db/chain.rs` but
not itself part of the excerpt) adds a block's value-balance delta to the
chain value pool, one pool at a time under the `NonNegative` constraint, and
propagates any amount error ("per-shielded-pool (and transparent) running
balance used to enforce non-negativity consensus rules"). -/
def ValueBalance.add_block (pool : ValueBalance) (delta : ValueBalance) :
    Except String ValueBalance := do
  let t ← amountAdd .nonNegative pool.transparent delta.transparent
  let sp ← amountAdd .nonNegative pool.sprout delta.sprout
  let sa ← amountAdd .nonNegative pool.sapling delta.sapling
  let o ← amountAdd .nonNegative pool.orchard delta.orchard
  .ok ⟨t, sp, sa, o⟩

/-! ## Note commitment trees, history trees, transactions and blocks

The incremental note-commitment tree and history tree types live outside the
excerpt; the spec describes them as "per-pool incremental note-commitment
trees" whose `append` can fail (the doc of `update_note_commitment_trees`
propagates append errors) and as "a ZIP-221 history tree".  We model a
note-commitment tree by its sequence of appended commitments with a bounded
capacity, and a (non-empty) history tree abstractly. -/

/-- Modelled from the spec: a non-empty ZIP-221 history tree value, abstract.
The in-memory `HistoryTree` wrapper is an `Option HTree`
(`None` is the empty pre-Heartwood tree, which is also its `Default`). -/
abbrev HTree : Type := Nat

/-- A note commitment, abstract. -/
abbrev NoteCommitment : Type := Nat

/-- A nullifier, abstract. -/
abbrev Nullifier : Type := Nat

/-- Modelled from the spec: an incremental note-commitment tree, represented by
the sequence of commitments appended to it. -/
structure NoteCommitmentTree : Type where
  leaves : List NoteCommitment
deriving DecidableEq

/-- Modelled from the spec: the maximum number of leaves of an incremental
note-commitment tree (a tree of depth 32). -/
def MAX_TREE_LEAVES : Nat := 2 ^ 32

/-- The `Default` (empty) note commitment tree. -/
instance : Inhabited NoteCommitmentTree := ⟨⟨[]⟩⟩

/-- Modelled from the spec: appending a commitment to an incremental
note-commitment tree; fails when the tree is full (the error that
`update_note_commitment_trees` propagates). -/
def NoteCommitmentTree.append (t : NoteCommitmentTree) (cm : NoteCommitment) :
    Except String NoteCommitmentTree :=
  if t.leaves.length < MAX_TREE_LEAVES then .ok ⟨t.leaves ++ [cm]⟩
  else .error "note commitment tree is full"

/-- Modelled from the spec: the root (anchor) of a note-commitment tree.  The
root is a collision-free digest of the tree's contents, modelled by the leaf
sequence itself. -/
def NoteCommitmentTree.root (t : NoteCommitmentTree) : List NoteCommitment := t.leaves

/-- `NoteCommitmentTrees` (`zebra-state/.../zebra_db/shielded.rs` lines 30–35):
the argument wrapper holding the three pool trees. -/
structure NoteCommitmentTrees : Type where
  sprout : NoteCommitmentTree
  sapling : NoteCommitmentTree
  orchard : NoteCommitmentTree
deriving DecidableEq

/-- The data of a `Transaction` used by the finalized-state batch code: its
per-pool nullifiers and note commitments (accessors
`sprout_nullifiers()`, …, `orchard_note_commitments()`). -/
structure Transaction : Type where
  sprout_nullifiers : List Nullifier
  sapling_nullifiers : List Nullifier
  orchard_nullifiers : List Nullifier
  sprout_note_commitments : List NoteCommitment
  sapling_note_commitments : List NoteCommitment
  orchard_note_commitments : List NoteCommitment
deriving DecidableEq

/-- A transaction with no shielded data. -/
def Transaction.empty : Transaction := ⟨[], [], [], [], [], []⟩

/-- The data of a `FinalizedBlock` used by the finalized-state batch code:
its height, hash, transactions, and the block's value-balance delta
(consumed by `add_block`). -/
structure FinalizedBlock : Type where
  height : Nat
  hash : Nat
  transactions : List Transaction
  value_delta : ValueBalance
deriving DecidableEq

/-! ## The durable store and write batches

A RocksDB column family is modelled as a map from keys to optional values
(`none` = key absent); nullifier and anchor column families, which the
excerpt only ever tests for membership and inserts into, are modelled as
membership predicates.  A `DiskWriteBatch` holds the pending operations per
column family, in order. -/

/-- One pending write-batch operation on a height-keyed column family
(`zs_insert` / `zs_delete` in `disk_db`). -/
inductive CfOp (α : Type) : Type
  | insert (key : Nat) (value : α) : CfOp α
  | delete (key : Nat) : CfOp α
deriving DecidableEq

/-- The finalized-state database (`ZebraDb`), restricted to the column
families the excerpt touches. -/
structure ZebraDb : Type where
  finalized_tip_height : Option Nat
  sprout_nullifiers : Nullifier → Bool
  sapling_nullifiers : Nullifier → Bool
  orchard_nullifiers : Nullifier → Bool
  sprout_anchors : List NoteCommitment → Option NoteCommitmentTree
  sapling_anchors : List NoteCommitment → Bool
  orchard_anchors : List NoteCommitment → Bool
  sprout_note_commitment_tree_cf : Nat → Option NoteCommitmentTree
  sapling_note_commitment_tree_cf : Nat → Option NoteCommitmentTree
  orchard_note_commitment_tree_cf : Nat → Option NoteCommitmentTree
  history_tree_cf : Nat → Option HTree
  tip_chain_value_pool : Option ValueBalance

/-- The empty database: no finalized tip, all column families empty. -/
def ZebraDb.empty : ZebraDb where
  finalized_tip_height := none
  sprout_nullifiers := fun _ => false
  sapling_nullifiers := fun _ => false
  orchard_nullifiers := fun _ => false
  sprout_anchors := fun _ => none
  sapling_anchors := fun _ => false
  orchard_anchors := fun _ => false
  sprout_note_commitment_tree_cf := fun _ => none
  sapling_note_commitment_tree_cf := fun _ => none
  orchard_note_commitment_tree_cf := fun _ => none
  history_tree_cf := fun _ => none
  tip_chain_value_pool := none

/-- `DiskWriteBatch`: the pending writes per column family, in order. -/
structure DiskWriteBatch : Type where
  sprout_nullifiers : List Nullifier
  sapling_nullifiers : List Nullifier
  orchard_nullifiers : List Nullifier
  sprout_anchors : List (List NoteCommitment × NoteCommitmentTree)
  sapling_anchors : List (List NoteCommitment)
  orchard_anchors : List (List NoteCommitment)
  sprout_nct_ops : List (CfOp NoteCommitmentTree)
  sapling_nct_ops : List (CfOp NoteCommitmentTree)
  orchard_nct_ops : List (CfOp NoteCommitmentTree)
  history_ops : List (CfOp HTree)
  value_pool_insert : Option ValueBalance
deriving DecidableEq

/-- A freshly created, empty `DiskWriteBatch`. -/
def DiskWriteBatch.empty : DiskWriteBatch := ⟨[], [], [], [], [], [], [], [], [], [], none⟩

/-- Zebra's `Height - 1` (`let current_tip_height = *height - 1`): heights are
non-negative, so the predecessor of height 0 is `None`. -/
def heightPred (h : Nat) : Option Nat :=
  if h = 0 then none else some (h - 1)

/-- `DiskWriteBatch::prepare_nullifier_batch`
(`zebra-state/.../zebra_db/shielded.rs` lines 154–175): marks the
transaction's sprout, sapling and orchard nullifiers as spent by inserting
each into its nullifier column family; always returns `Ok`. -/
def DiskWriteBatch.prepare_nullifier_batch (self : DiskWriteBatch) (tx : Transaction) :
    Except String DiskWriteBatch :=
  .ok { self with
    sprout_nullifiers := self.sprout_nullifiers ++ tx.sprout_nullifiers
    sapling_nullifiers := self.sapling_nullifiers ++ tx.sapling_nullifiers
    orchard_nullifiers := self.orchard_nullifiers ++ tx.orchard_nullifiers }

/-- `DiskWriteBatch::update_note_commitment_trees`
(`zebra-state/.../zebra_db/shielded.rs` lines 185–207): appends the
transaction's sprout, sapling and orchard note commitments to the supplied
trees, propagating any append error. -/
def DiskWriteBatch.update_note_commitment_trees (tx : Transaction)
    (trees : NoteCommitmentTrees) : Except String NoteCommitmentTrees := do
  let sp ← tx.sprout_note_commitments.foldlM NoteCommitmentTree.append trees.sprout
  let sa ← tx.sapling_note_commitments.foldlM NoteCommitmentTree.append trees.sapling
  let oc ← tx.orchard_note_commitments.foldlM NoteCommitmentTree.append trees.orchard
  .ok ⟨sp, sa, oc⟩

/-- `DiskWriteBatch::prepare_history_batch`
(`zebra-state/.../zebra_db/chain.rs` lines 70–95): deletes the history-tree
entry at the previous height (when the new height is at least 1) and inserts
the block's history tree at the new height — but only when that tree is
non-empty (`if let Some(history_tree) = ...`). -/
def DiskWriteBatch.prepare_history_batch (self : DiskWriteBatch) (height : Nat)
    (history_tree : Option HTree) : Except String DiskWriteBatch :=
  let b1 := match heightPred height with
    | some h => { self with history_ops := self.history_ops ++ [CfOp.delete h] }
    | none => self
  let b2 := match history_tree with
    | some t => { b1 with history_ops := b1.history_ops ++ [CfOp.insert height t] }
    | none => b1
  .ok b2

/-- `DiskWriteBatch::prepare_note_commitment_batch`
(`zebra-state/.../zebra_db/shielded.rs` lines 218–281): indexes the new
anchors, deletes the three note-commitment-tree entries at the previous
height (when the new height is at least 1), inserts the updated trees at the
new height, and finishes with `prepare_history_batch`. -/
def DiskWriteBatch.prepare_note_commitment_batch (self : DiskWriteBatch) (height : Nat)
    (note_commitment_trees : NoteCommitmentTrees) (history_tree : Option HTree) :
    Except String DiskWriteBatch :=
  let sprout_root := note_commitment_trees.sprout.root
  let sapling_root := note_commitment_trees.sapling.root
  let orchard_root := note_commitment_trees.orchard.root
  let b1 := { self with
    sprout_anchors := self.sprout_anchors ++ [(sprout_root, note_commitment_trees.sprout)]
    sapling_anchors := self.sapling_anchors ++ [sapling_root]
    orchard_anchors := self.orchard_anchors ++ [orchard_root] }
  let b2 := match heightPred height with
    | some h => { b1 with
        sprout_nct_ops := b1.sprout_nct_ops ++ [CfOp.delete h]
        sapling_nct_ops := b1.sapling_nct_ops ++ [CfOp.delete h]
        orchard_nct_ops := b1.orchard_nct_ops ++ [CfOp.delete h] }
    | none => b1
  let b3 := { b2 with
    sprout_nct_ops := b2.sprout_nct_ops ++ [CfOp.insert height note_commitment_trees.sprout]
    sapling_nct_ops := b2.sapling_nct_ops ++ [CfOp.insert height note_commitment_trees.sapling]
    orchard_nct_ops := b2.orchard_nct_ops ++ [CfOp.insert height note_commitment_trees.orchard] }
  b3.prepare_history_batch height history_tree

/-- `DiskWriteBatch::prepare_genesis_note_commitment_tree_batch`
(`zebra-state/.../zebra_db/shielded.rs` lines 287–317): inserts the three
empty (`Default`) note commitment trees at the block's height; this method
never returns an error (it is total). -/
def DiskWriteBatch.prepare_genesis_note_commitment_tree_batch (self : DiskWriteBatch)
    (height : Nat) : DiskWriteBatch :=
  { self with
    sprout_nct_ops := self.sprout_nct_ops ++ [CfOp.insert height default]
    sapling_nct_ops := self.sapling_nct_ops ++ [CfOp.insert height default]
    orchard_nct_ops := self.orchard_nct_ops ++ [CfOp.insert height default] }

/-- `ZebraDb::finalized_value_pool` (`zebra-state/.../zebra_db/chain.rs`
lines 51–56): the stored tip chain value pool, or zero when absent. -/
def ZebraDb.finalized_value_pool (db : ZebraDb) : ValueBalance :=
  db.tip_chain_value_pool.getD ValueBalance.zero

/-- `DiskWriteBatch::prepare_chain_value_pools_batch`
(`zebra-state/.../zebra_db/chain.rs` lines 107–122): computes
`value_pool.add_block(block, ..)` — propagating its error — and inserts the
new pool under the unit key of `tip_chain_value_pool`. -/
def DiskWriteBatch.prepare_chain_value_pools_batch (self : DiskWriteBatch)
    (finalized : FinalizedBlock) (value_pool : ValueBalance) :
    Except String DiskWriteBatch := do
  let new_pool ← value_pool.add_block finalized.value_delta
  .ok { self with value_pool_insert := some new_pool }

/-! ## Applying a batch to the database -/

/-- Apply a list of pending operations to a height-keyed column family, in
order: later operations on the same key win. -/
def applyOps {α : Type} (ops : List (CfOp α)) (cf : Nat → Option α) : Nat → Option α :=
  ops.foldl (fun g op => match op with
    | .insert k v => fun k' => if k' = k then some v else g k'
    | .delete k => fun k' => if k' = k then none else g k') cf

/-- Commit a prepared `DiskWriteBatch` to the database atomically: all the
pending inserts and deletes of every column family are applied. -/
def applyBatch (batch : DiskWriteBatch) (db : ZebraDb) : ZebraDb :=
  { db with
    sprout_nullifiers := fun n => db.sprout_nullifiers n || batch.sprout_nullifiers.contains n
    sapling_nullifiers := fun n => db.sapling_nullifiers n || batch.sapling_nullifiers.contains n
    orchard_nullifiers := fun n => db.orchard_nullifiers n || batch.orchard_nullifiers.contains n
    sprout_anchors := batch.sprout_anchors.foldl
      (fun g p => fun r => if r = p.1 then some p.2 else g r) db.sprout_anchors
    sapling_anchors := fun r => db.sapling_anchors r || batch.sapling_anchors.contains r
    orchard_anchors := fun r => db.orchard_anchors r || batch.orchard_anchors.contains r
    sprout_note_commitment_tree_cf := applyOps batch.sprout_nct_ops db.sprout_note_commitment_tree_cf
    sapling_note_commitment_tree_cf := applyOps batch.sapling_nct_ops db.sapling_note_commitment_tree_cf
    orchard_note_commitment_tree_cf := applyOps batch.orchard_nct_ops db.orchard_note_commitment_tree_cf
    history_tree_cf := applyOps batch.history_ops db.history_tree_cf
    tip_chain_value_pool := match batch.value_pool_insert with
      | some p => some p
      | none => db.tip_chain_value_pool }

/-! ## The finalized-block commit pipeline

The orchestrator that calls the `prepare_*` methods
(`commit_finalized_direct`) is not part of the excerpt; per the spec,
`commit_finalized_block` "builds one atomic batch containing: nullifier
insertions, …, note-commitment-tree and anchor updates, …, history-tree
update, and value-pool update; commits the batch as a single durable
transaction.  On batch-build failure, no partial write is visible (the batch
is simply dropped without committing)." -/

/-- Modelled from the spec: building the single atomic batch for a finalized
block, composing the excerpt's `prepare_nullifier_batch`,
`update_note_commitment_trees`, `prepare_note_commitment_batch` (which ends
in `prepare_history_batch`) and `prepare_chain_value_pools_batch`; any error
aborts the build.  `trees` and `history_tree` are the block's treestate
computed by the caller. -/
def build_batch (db : ZebraDb) (blk : FinalizedBlock) (trees : NoteCommitmentTrees)
    (history_tree : Option HTree) : Except String DiskWriteBatch := do
  let b1 ← blk.transactions.foldlM DiskWriteBatch.prepare_nullifier_batch DiskWriteBatch.empty
  let trees2 ← blk.transactions.foldlM
    (fun ts tx => DiskWriteBatch.update_note_commitment_trees tx ts) trees
  let b2 ← b1.prepare_note_commitment_batch blk.height trees2 history_tree
  b2.prepare_chain_value_pools_batch blk db.finalized_value_pool

/-- Modelled from the spec: committing a finalized block — build the batch,
and either commit it atomically (also advancing the finalized tip to the
block's height) or, on batch-build failure, drop it without committing,
leaving the database untouched. -/
def commit_finalized_block (db : ZebraDb) (blk : FinalizedBlock)
    (trees : NoteCommitmentTrees) (history_tree : Option HTree) :
    ZebraDb × Except String Unit :=
  match build_batch db blk trees history_tree with
  | .error e => (db, .error e)
  | .ok batch =>
    ({ applyBatch batch db with finalized_tip_height := some blk.height }, .ok ())

/-- The height the next finalized block must have: one more than the
finalized tip, or 0 for an empty state. -/
def next_height (db : ZebraDb) : Nat :=
  match db.finalized_tip_height with
  | none => 0
  | some h => h + 1

/-- Modelled from the spec: "finalizing the same root block twice is
rejected/no-ops rather than double-applying its deltas" — the durable commit
accepts only the next block of the canonical chain (height exactly one past
the finalized tip) and rejects any other block without touching the state. -/
def commit_checked (db : ZebraDb) (blk : FinalizedBlock) (trees : NoteCommitmentTrees)
    (history_tree : Option HTree) : ZebraDb × Except String Unit :=
  if blk.height = next_height db then commit_finalized_block db blk trees history_tree
  else (db, .error "block is not the next block to finalize")

/-! ## Read accessors (`zebra_db/shielded.rs`, `zebra_db/chain.rs`,
`service/read/chain.rs`)

The tip tree accessors `.expect(..)` when the tree column family has no
entry at the finalized tip height; that panic is modelled as `none`. -/

/-- `ZebraDb::sprout_note_commitment_tree`
(`zebra-state/.../zebra_db/shielded.rs` lines 79–90): the empty tree when
the state is empty, otherwise the stored tree at the tip height (`none`
models the `expect` panic when that entry is missing). -/
def ZebraDb.sprout_note_commitment_tree (db : ZebraDb) : Option NoteCommitmentTree :=
  match db.finalized_tip_height with
  | none => some default
  | some h => db.sprout_note_commitment_tree_cf h

/-- `ZebraDb::sapling_note_commitment_tree`
(`zebra-state/.../zebra_db/shielded.rs` lines 106–118). -/
def ZebraDb.sapling_note_commitment_tree (db : ZebraDb) : Option NoteCommitmentTree :=
  match db.finalized_tip_height with
  | none => some default
  | some h => db.sapling_note_commitment_tree_cf h

/-- `ZebraDb::orchard_note_commitment_tree`
(`zebra-state/.../zebra_db/shielded.rs` lines 122–134). -/
def ZebraDb.orchard_note_commitment_tree (db : ZebraDb) : Option NoteCommitmentTree :=
  match db.finalized_tip_height with
  | none => some default
  | some h => db.orchard_note_commitment_tree_cf h

/-- `ZebraDb::history_tree` (`zebra-state/.../zebra_db/chain.rs` lines
35–48): the stored non-empty tree at the tip height when present, otherwise
the `Default` (empty) history tree, i.e. `none` in the `Option HTree` model. -/
def ZebraDb.history_tree (db : ZebraDb) : Option HTree :=
  match db.finalized_tip_height with
  | some h =>
    match db.history_tree_cf h with
    | some t => some t
    | none => none
  | none => none

/-- The part of a non-finalized `Chain` read by `history_tree_root`: its
in-memory history tree. -/
structure Chain : Type where
  history_tree : Option HTree
deriving DecidableEq

/-- `history_tree_root` (`zebra-state/src/service/read/chain.rs` lines
21–33): `chain.and_then(|c| Some(c.history_tree)).or_else(|| Some(db.history_tree()))`. -/
def history_tree_root (chain : Option Chain) (db : ZebraDb) : Option (Option HTree) :=
  (chain.bind fun c => some c.history_tree).orElse fun _ => some db.history_tree

/-! ## Non-finalized best-chain selection

`best_chain()` is not part of the excerpt; per the spec it "returns the
chain with greatest cumulative proof-of-work; ties are broken
deterministically (e.g. by block hash ordering)". -/

/-- Modelled from the spec: the data of a candidate chain that best-chain
selection reads — its cumulative proof-of-work and its tip block hash
(hashes are 32-byte digests, modelled as naturals). -/
structure NfChain : Type where
  work : Nat
  tip_hash : Nat
deriving DecidableEq

/-- Strict "better chain" comparison: greater cumulative work, with ties
broken by greater tip hash. -/
def chainBetter (c b : NfChain) : Bool :=
  decide (b.work < c.work) || (decide (b.work = c.work) && decide (b.tip_hash < c.tip_hash))

/-- One selection step of `best_chain`: keep the better of the current best
candidate and the next chain. -/
def bestStep (best : Option NfChain) (c : NfChain) : Option NfChain :=
  match best with
  | none => some c
  | some b => if chainBetter c b then some c else some b

/-- Modelled from the spec: `best_chain()` scans the candidate chains and
keeps the one with greatest cumulative proof-of-work, breaking work ties by
block hash ordering; `none` only for an empty forest. -/
def best_chain (chains : List NfChain) : Option NfChain :=
  chains.foldl bestStep none

/-- The strict key order underlying `chainBetter`: lexicographic on
(cumulative work, tip hash). -/
def keyLt (a b : NfChain) : Prop :=
  a.work < b.work ∨ (a.work = b.work ∧ a.tip_hash < b.tip_hash)

/-! ## Transaction hashes (`zebra-chain/src/transaction/hash.rs`)

A transaction `Hash` is 32 bytes; `Display` reverses the bytes and
hex-encodes them (lowercase, via the `hex` crate), `FromStr` hex-decodes
exactly 64 digits and reverses.  The hex codec is modelled byte for byte. -/

/-- Lowercase hex digit for a value below 16 (`hex::encode`). -/
def hexDigitChar (n : Nat) : Char :=
  if n < 10 then Char.ofNat (48 + n) else Char.ofNat (97 + (n - 10))

/-- Hex-encode a byte string, two lowercase digits per byte (`hex::encode`). -/
def hexEncode (bytes : List Nat) : List Char :=
  bytes.foldr (fun b s => hexDigitChar (b / 16) :: hexDigitChar (b % 16) :: s) []

/-- Decode one hex digit, accepting both lowercase and uppercase
(`hex::decode_to_slice`). -/
def decodeHexDigit (c : Char) : Option Nat :=
  if 48 ≤ c.toNat ∧ c.toNat ≤ 57 then some (c.toNat - 48)
  else if 97 ≤ c.toNat ∧ c.toNat ≤ 102 then some (c.toNat - 97 + 10)
  else if 65 ≤ c.toNat ∧ c.toNat ≤ 70 then some (c.toNat - 65 + 10)
  else none

/-- Decode a hex string two digits at a time; fails on an odd length or an
invalid digit. -/
def decodeHexPairs : List Char → Option (List Nat)
  | [] => some []
  | c1 :: c2 :: rest => do
    let d1 ← decodeHexDigit c1
    let d2 ← decodeHexDigit c2
    let tail ← decodeHexPairs rest
    some ((d1 * 16 + d2) :: tail)
  | [_] => none

/-- `hex::decode_to_slice` into a buffer of `len` bytes: the input must hold
exactly `2 * len` hex digits. -/
def hexDecodeToSlice (s : List Char) (len : Nat) : Option (List Nat) :=
  if s.length = 2 * len then decodeHexPairs s else none

/-- A transaction `Hash` (`zebra-chain/src/transaction/hash.rs` line 18):
32 bytes. -/
structure TransactionHash : Type where
  bytes : List Nat
deriving DecidableEq

/-- `Display for Hash` (`hash.rs` lines 30–36): reverse the bytes, then
hex-encode. -/
def TransactionHash.display (h : TransactionHash) : List Char :=
  hexEncode h.bytes.reverse

/-- `FromStr for Hash` (`hash.rs` lines 48–60): hex-decode into a 32-byte
buffer — a parse error on failure — then reverse the bytes. -/
def TransactionHash.from_str (s : List Char) : Except String TransactionHash :=
  match hexDecodeToSlice s 32 with
  | none => .error "hex decoding error"
  | some bytes => .ok ⟨bytes.reverse⟩

/-! ## Consensus block checks (`zebra-consensus/src/block/check.rs`) -/

/-- The data of a transaction read by `is_subsidy_correct`: the coinbase
height encoded in it (if any) and its transparent output values (each
`o.value` converted to `i64`). -/
structure CheckTransaction : Type where
  coinbase_height_field : Option Nat
  output_values : List Int
deriving DecidableEq

/-- The data of a `Block` read by `is_subsidy_correct`: its transactions. -/
structure CheckBlock : Type where
  transactions : List CheckTransaction
deriving DecidableEq

/-- Modelled from the spec: `Block::coinbase_height` (defined in
`zebra-chain`, outside the excerpt) — the coinbase height recorded in the
block's first transaction, if any. -/
def CheckBlock.coinbase_height (b : CheckBlock) : Option Nat :=
  b.transactions.head?.bind fun t => t.coinbase_height_field

/-- `Params::CANOPY_ACTIVATION_HEIGHT`
(`zebra-consensus/src/parameters/subsidy.rs` line 42): the mainnet Canopy
activation height; `Canopy.activation_height(Mainnet)` returns the same
value. -/
def CANOPY_ACTIVATION_HEIGHT : Nat := 1046400

/-- `Params::LAST_FOUNDER_REWARD_HEIGHT`
(`zebra-consensus/src/parameters/subsidy.rs` line 45). -/
def LAST_FOUNDER_REWARD_HEIGHT : Nat := CANOPY_ACTIVATION_HEIGHT - 1

/-- `is_subsidy_correct` (`zebra-consensus/src/block/check.rs` lines 39–73),
parameterized by the `subsidies::block_subsidy` and
`subsidies::miner_subsidy` functions it calls (their float-based arithmetic
lives in `block/subsidies.rs` and is irrelevant to the post-Canopy branch).
`none` models the panic of `block.coinbase_height().unwrap()`.  Post-Canopy
heights return `Ok` before the outputs are inspected; pre-Canopy heights in
the founders-reward range scan the coinbase outputs for one output equal to
`block_subsidy / 5` and one equal to `miner_subsidy` (an `if` / `else if`
chain, so a single output sets at most one flag). -/
def is_subsidy_correct (block_subsidy miner_subsidy : Nat → Int) (block : CheckBlock) :
    Option (Except String Unit) :=
  match block.coinbase_height with
  | none => none
  | some height =>
    some (
      match block.transactions.head? with
      | none => .error "no coinbase transaction"
      | some coinbase =>
        if CANOPY_ACTIVATION_HEIGHT ≤ height then .ok ()
        else
          if 0 < height ∧ height ≤ LAST_FOUNDER_REWARD_HEIGHT then
            let flags := coinbase.output_values.foldl
              (fun (p : Bool × Bool) value =>
                if value = block_subsidy height / 5 then (true, p.2)
                else if value = miner_subsidy height then (p.1, true)
                else p)
              (false, false)
            if flags.1 && flags.2 then .ok () else .error "error in the validation"
          else .error "error in the validation")

/-- A concrete batch built by `prepare_note_commitment_batch` at height 1
(used as a witness input). -/
def c1WitnessBatch : DiskWriteBatch :=
  (DiskWriteBatch.empty.prepare_note_commitment_batch 1 ⟨⟨[2]⟩, ⟨[3]⟩, ⟨[]⟩⟩
    (some 5)).toOption.getD DiskWriteBatch.empty

/-! # Theorems -/

/-! ## Helper lemmas -/

theorem except_bind_ok {α β : Type} (x : α) (f : α → Except String β) :
    (Except.ok x >>= f) = f x := rfl

theorem except_bind_err {α β : Type} (e : String) (f : α → Except String β) :
    ((Except.error e : Except String α) >>= f) = .error e := rfl

theorem amountAdd_ok_of (c : AmountConstraint) (x y : Int)
    (h : c.inRange (x + y) = true) : amountAdd c x y = .ok (x + y) := by
  simp [amountAdd, h]

theorem amountAdd_err_of (c : AmountConstraint) (x y : Int)
    (h : ¬c.inRange (x + y) = true) :
    amountAdd c x y = .error "amount out of range" := by
  simp [amountAdd, h]

theorem amountSub_ok_of (c : AmountConstraint) (x y : Int)
    (h : c.inRange (x - y) = true) : amountSub c x y = .ok (x - y) := by
  simp [amountSub, h]

theorem amountSub_err_of (c : AmountConstraint) (x y : Int)
    (h : ¬c.inRange (x - y) = true) :
    amountSub c x y = .error "amount out of range" := by
  simp [amountSub, h]

theorem amountConstrain_ok_of (c : AmountConstraint) (v : Int)
    (h : c.inRange v = true) : amountConstrain c v = .ok v := by
  simp [amountConstrain, h]

theorem amountConstrain_err_of (c : AmountConstraint) (v : Int)
    (h : ¬c.inRange v = true) :
    amountConstrain c v = .error "amount constraint violated" := by
  simp [amountConstrain, h]

theorem decodeHexDigit_hexDigitChar (d : Nat) (hd : d < 16) :
    decodeHexDigit (hexDigitChar d) = some d := by
  interval_cases d <;> decide

theorem hexEncode_cons (b : Nat) (bs : List Nat) :
    hexEncode (b :: bs) = hexDigitChar (b / 16) :: hexDigitChar (b % 16) :: hexEncode bs := rfl

theorem hexEncode_length (bs : List Nat) : (hexEncode bs).length = 2 * bs.length := by
  induction bs with
  | nil => rfl
  | cons b bs ih =>
    rw [hexEncode_cons]
    simp only [List.length_cons, ih]
    omega

theorem decodeHexPairs_hexEncode (bs : List Nat) (hb : ∀ b ∈ bs, b < 256) :
    decodeHexPairs (hexEncode bs) = some bs := by
  induction bs with
  | nil => rfl
  | cons b bs ih =>
    have hb0 : b < 256 := hb b (List.mem_cons_self b bs)
    rw [hexEncode_cons]
    rw [show decodeHexPairs (hexDigitChar (b / 16) :: hexDigitChar (b % 16) :: hexEncode bs)
        = (do
            let d1 ← decodeHexDigit (hexDigitChar (b / 16))
            let d2 ← decodeHexDigit (hexDigitChar (b % 16))
            let tail ← decodeHexPairs (hexEncode bs)
            some ((d1 * 16 + d2) :: tail)) from rfl]
    rw [decodeHexDigit_hexDigitChar _ (by omega), decodeHexDigit_hexDigitChar _ (by omega),
      ih (fun x hx => hb x (List.mem_cons_of_mem _ hx))]
    simp only [Option.bind_eq_bind, Option.some_bind, Option.some.injEq, List.cons.injEq,
      and_true]
    omega

/-! ## Claim theorems -/

/-- C7 (amended): `remaining_transaction_value` returns `Ok` exactly when
every intermediate amount operation stays within the constraint's range —
`sprout + sapling`, then that sum plus `orchard`, then `transparent` minus
the sum — and the final difference also satisfies the `NonNegative`
constraint; the returned amount is that difference.  In every other case it
returns an error. -/
theorem remaining_transaction_value_ok_iff (c : AmountConstraint) (vb : ValueBalance)
    (a : Int) :
    vb.remaining_transaction_value c = .ok a ↔
      (c.inRange (vb.sprout + vb.sapling) = true ∧
        c.inRange (vb.sprout + vb.sapling + vb.orchard) = true ∧
        c.inRange (vb.transparent - (vb.sprout + vb.sapling + vb.orchard)) = true ∧
        AmountConstraint.nonNegative.inRange
          (vb.transparent - (vb.sprout + vb.sapling + vb.orchard)) = true ∧
        a = vb.transparent - (vb.sprout + vb.sapling + vb.orchard)) := by
  unfold ValueBalance.remaining_transaction_value
  by_cases h1 : c.inRange (vb.sprout + vb.sapling) = true
  · rw [amountAdd_ok_of c _ _ h1, except_bind_ok]
    by_cases h2 : c.inRange (vb.sprout + vb.sapling + vb.orchard) = true
    · rw [amountAdd_ok_of c _ _ h2, except_bind_ok]
      by_cases h3 : c.inRange (vb.transparent - (vb.sprout + vb.sapling + vb.orchard)) = true
      · rw [amountSub_ok_of c _ _ h3, except_bind_ok]
        by_cases h4 : AmountConstraint.nonNegative.inRange
            (vb.transparent - (vb.sprout + vb.sapling + vb.orchard)) = true
        · rw [amountConstrain_ok_of _ _ h4]
          simp [h1, h2, h3, h4, eq_comm]
        · rw [amountConstrain_err_of _ _ h4]
          simp [h4]
      · rw [amountSub_err_of c _ _ h3, except_bind_err]
        simp [h3]
    · rw [amountAdd_err_of c _ _ h2, except_bind_err]
      simp [h2]
  · rw [amountAdd_err_of c _ _ h1, except_bind_err]
    simp [h1]

/-- C7 counterexample to the claim as stated: for the `NegativeAllowed`
balance (transparent, sprout, sapling, orchard) =
(MAX_MONEY, MAX_MONEY, MAX_MONEY, -MAX_MONEY), the transparent amount minus
the sum of the three shielded amounts is 0 — representable and nonnegative —
yet the function returns an error, because the intermediate sum
`sprout + sapling` already overflows the constraint's range. -/
theorem remaining_transaction_value_claim_cex :
    AmountConstraint.nonNegative.inRange
        (2100000000000000 - (2100000000000000 + 2100000000000000 + -2100000000000000))
        = true ∧
    (ValueBalance.remaining_transaction_value .negativeAllowed
        ⟨2100000000000000, 2100000000000000, 2100000000000000, -2100000000000000⟩).isOk
        = false := by
  constructor
  · decide
  · decide

/-- C6: for every optional non-finalized chain and finalized database,
`history_tree_root` returns `Some` value — the chain's in-memory history
tree when a chain is supplied, and the database's history tree otherwise; it
never returns `None`. -/
theorem history_tree_root_always_some (chain : Option Chain) (db : ZebraDb) :
    history_tree_root chain db =
      some (match chain with
        | some c => c.history_tree
        | none => db.history_tree) := by
  cases chain <;> rfl

/-- C8: `prepare_genesis_note_commitment_tree_batch` always succeeds (it is
total, returning no error) and, for the genesis block (height 0), adds to
the batch exactly one insert per pool of the default (empty) note-commitment
tree keyed by height 0. -/
theorem prepare_genesis_inserts_default_trees (b : DiskWriteBatch) (height : Nat)
    (h0 : height = 0) :
    (b.prepare_genesis_note_commitment_tree_batch height).sprout_nct_ops
        = b.sprout_nct_ops ++ [CfOp.insert 0 default] ∧
    (b.prepare_genesis_note_commitment_tree_batch height).sapling_nct_ops
        = b.sapling_nct_ops ++ [CfOp.insert 0 default] ∧
    (b.prepare_genesis_note_commitment_tree_batch height).orchard_nct_ops
        = b.orchard_nct_ops ++ [CfOp.insert 0 default] := by
  subst h0
  exact ⟨rfl, rfl, rfl⟩

/-- Witness for C8 at the empty batch and height 0. -/
theorem prepare_genesis_inserts_default_trees_witness :
    (0 : Nat) = 0 ∧
    ((DiskWriteBatch.empty.prepare_genesis_note_commitment_tree_batch 0).sprout_nct_ops
        = DiskWriteBatch.empty.sprout_nct_ops ++ [CfOp.insert 0 default] ∧
      (DiskWriteBatch.empty.prepare_genesis_note_commitment_tree_batch 0).sapling_nct_ops
        = DiskWriteBatch.empty.sapling_nct_ops ++ [CfOp.insert 0 default] ∧
      (DiskWriteBatch.empty.prepare_genesis_note_commitment_tree_batch 0).orchard_nct_ops
        = DiskWriteBatch.empty.orchard_nct_ops ++ [CfOp.insert 0 default]) :=
  ⟨rfl, prepare_genesis_inserts_default_trees DiskWriteBatch.empty 0 rfl⟩

/-- C9: when the finalized state is empty (`finalized_tip_height()` is
`None`), the tip accessors never fail: the three note-commitment-tree
accessors return the default empty tree, `history_tree` returns the default
empty tree, and `finalized_value_pool` returns the all-zero balance when no
value-pool entry is stored. -/
theorem empty_state_accessors_default (db : ZebraDb)
    (htip : db.finalized_tip_height = none)
    (hpool : db.tip_chain_value_pool = none) :
    db.sprout_note_commitment_tree = some default ∧
    db.sapling_note_commitment_tree = some default ∧
    db.orchard_note_commitment_tree = some default ∧
    db.history_tree = none ∧
    db.finalized_value_pool = ValueBalance.zero := by
  refine ⟨?_, ?_, ?_, ?_, ?_⟩ <;>
    simp [ZebraDb.sprout_note_commitment_tree, ZebraDb.sapling_note_commitment_tree,
      ZebraDb.orchard_note_commitment_tree, ZebraDb.history_tree,
      ZebraDb.finalized_value_pool, htip, hpool]

/-- Witness for C9 at the empty database. -/
theorem empty_state_accessors_default_witness :
    ZebraDb.empty.finalized_tip_height = none ∧
    ZebraDb.empty.tip_chain_value_pool = none ∧
    (ZebraDb.empty.sprout_note_commitment_tree = some default ∧
      ZebraDb.empty.sapling_note_commitment_tree = some default ∧
      ZebraDb.empty.orchard_note_commitment_tree = some default ∧
      ZebraDb.empty.history_tree = none ∧
      ZebraDb.empty.finalized_value_pool = ValueBalance.zero) :=
  ⟨rfl, rfl, empty_state_accessors_default ZebraDb.empty rfl rfl⟩

/-- C10: for every block whose coinbase height is at or after the Canopy
activation height, `is_subsidy_correct` returns `Ok` — for arbitrary
coinbase outputs and arbitrary subsidy functions, so post-Canopy subsidy
amounts are never validated by this check. -/
theorem is_subsidy_correct_post_canopy (block_subsidy miner_subsidy : Nat → Int)
    (block : CheckBlock) (height : Nat)
    (hch : block.coinbase_height = some height)
    (hcanopy : CANOPY_ACTIVATION_HEIGHT ≤ height) :
    is_subsidy_correct block_subsidy miner_subsidy block = some (.ok ()) := by
  unfold is_subsidy_correct
  rw [hch]
  cases htx : block.transactions.head? with
  | none =>
    exfalso
    unfold CheckBlock.coinbase_height at hch
    rw [htx] at hch
    simp at hch
  | some coinbase =>
    simp [if_pos hcanopy]

/-- Witness for C10 at a concrete block with coinbase height exactly the
Canopy activation height and a nonsense output list. -/
theorem is_subsidy_correct_post_canopy_witness :
    (CheckBlock.mk [⟨some 1046400, [12345]⟩]).coinbase_height = some 1046400 ∧
    CANOPY_ACTIVATION_HEIGHT ≤ 1046400 ∧
    is_subsidy_correct (fun _ => 0) (fun _ => 0)
        (CheckBlock.mk [⟨some 1046400, [12345]⟩]) = some (.ok ()) :=
  ⟨rfl, by decide,
    is_subsidy_correct_post_canopy (fun _ => 0) (fun _ => 0)
      (CheckBlock.mk [⟨some 1046400, [12345]⟩]) 1046400 rfl (by decide)⟩

/-- C2: if building the batch for a finalized block fails — a note-commitment
tree append error or an `add_block` error — the batch is dropped: the commit
reports the error and the durable state is left exactly as it was. -/
theorem commit_unchanged_on_build_error (db : ZebraDb) (blk : FinalizedBlock)
    (trees : NoteCommitmentTrees) (history_tree : Option HTree) (e : String)
    (herr : build_batch db blk trees history_tree = .error e) :
    (commit_finalized_block db blk trees history_tree).1 = db ∧
    (commit_finalized_block db blk trees history_tree).2 = .error e := by
  unfold commit_finalized_block
  rw [herr]
  exact ⟨rfl, rfl⟩

/-- Witness for C2: committing a block whose value delta would drive the
transparent pool negative fails in `add_block` and leaves the empty database
unchanged. -/
theorem commit_unchanged_on_build_error_witness :
    build_batch ZebraDb.empty ⟨1, 0, [], ⟨-1, 0, 0, 0⟩⟩ ⟨⟨[]⟩, ⟨[]⟩, ⟨[]⟩⟩ none
        = .error "amount out of range" ∧
    ((commit_finalized_block ZebraDb.empty ⟨1, 0, [], ⟨-1, 0, 0, 0⟩⟩
          ⟨⟨[]⟩, ⟨[]⟩, ⟨[]⟩⟩ none).1 = ZebraDb.empty ∧
      (commit_finalized_block ZebraDb.empty ⟨1, 0, [], ⟨-1, 0, 0, 0⟩⟩
          ⟨⟨[]⟩, ⟨[]⟩, ⟨[]⟩⟩ none).2 = .error "amount out of range") :=
  ⟨rfl, commit_unchanged_on_build_error ZebraDb.empty ⟨1, 0, [], ⟨-1, 0, 0, 0⟩⟩
    ⟨⟨[]⟩, ⟨[]⟩, ⟨[]⟩⟩ none "amount out of range" rfl⟩

/-- C5: parsing (`FromStr`) the hex string produced by a transaction `Hash`'s
`Display` implementation yields the hash again, for every 32-byte hash. -/
theorem transaction_hash_display_roundtrip (h : TransactionHash)
    (hlen : h.bytes.length = 32) (hbytes : ∀ b ∈ h.bytes, b < 256) :
    TransactionHash.from_str h.display = .ok h := by
  unfold TransactionHash.from_str TransactionHash.display hexDecodeToSlice
  have hlen2 : (hexEncode h.bytes.reverse).length = 2 * 32 := by
    rw [hexEncode_length, List.length_reverse, hlen]
  rw [if_pos hlen2]
  rw [decodeHexPairs_hexEncode _ (fun b hb => hbytes b (List.mem_reverse.mp hb))]
  simp [List.reverse_reverse]

/-- Witness for C5 at the concrete 32-byte hash (0, 1, …, 31). -/
theorem transaction_hash_display_roundtrip_witness :
    (TransactionHash.mk (List.range 32)).bytes.length = 32 ∧
    (∀ b ∈ (TransactionHash.mk (List.range 32)).bytes, b < 256) ∧
    TransactionHash.from_str (TransactionHash.mk (List.range 32)).display
        = .ok (TransactionHash.mk (List.range 32)) :=
  ⟨by decide, by decide,
    transaction_hash_display_roundtrip (TransactionHash.mk (List.range 32))
      (by decide) (by decide)⟩

/-- Applying a delete of the superseded height followed by an insert at the
new height to a column family that stores an entry at most at the superseded
height leaves exactly the entry at the new height. -/
theorem applyOps_supersede {α : Type} (h : Nat) (v : α)
    (cf : Nat → Option α) (hcf : ∀ j, j ≠ h - 1 → cf j = none) (k : Nat) :
    applyOps [CfOp.delete (h - 1), CfOp.insert h v] cf k
      = if k = h then some v else none := by
  unfold applyOps
  simp only [List.foldl]
  by_cases hk : k = h
  · simp [hk]
  · by_cases hk2 : k = h - 1
    · simp [hk, hk2]
    · simp [hk, hk2, hcf k hk2]

/-- C1 (amended): for every finalized block at height `h ≥ 1`, the batch
built by `prepare_note_commitment_batch` deletes the sprout, sapling and
orchard note-commitment-tree entries and the history-tree entry keyed by
`h - 1`, inserts the three updated note-commitment trees keyed by `h`, and
inserts the updated history tree keyed by `h` exactly when that tree is
non-empty; consequently, applying the batch to a store holding at most the
previous tree per pool retains only the latest tree per pool (the entry at
the new tip height). -/
theorem prepare_note_commitment_batch_supersedes (h : Nat) (ncts : NoteCommitmentTrees)
    (history_tree : Option HTree) (b : DiskWriteBatch)
    (hh : 1 ≤ h)
    (heq : DiskWriteBatch.empty.prepare_note_commitment_batch h ncts history_tree = .ok b) :
    b.sprout_nct_ops = [CfOp.delete (h - 1), CfOp.insert h ncts.sprout] ∧
    b.sapling_nct_ops = [CfOp.delete (h - 1), CfOp.insert h ncts.sapling] ∧
    b.orchard_nct_ops = [CfOp.delete (h - 1), CfOp.insert h ncts.orchard] ∧
    b.history_ops = CfOp.delete (h - 1) ::
      (match history_tree with
        | some t => [CfOp.insert h t]
        | none => []) ∧
    (∀ cf : Nat → Option NoteCommitmentTree, (∀ j, j ≠ h - 1 → cf j = none) →
      ∀ k, applyOps b.sprout_nct_ops cf k = if k = h then some ncts.sprout else none) ∧
    (∀ cf : Nat → Option NoteCommitmentTree, (∀ j, j ≠ h - 1 → cf j = none) →
      ∀ k, applyOps b.sapling_nct_ops cf k = if k = h then some ncts.sapling else none) ∧
    (∀ cf : Nat → Option NoteCommitmentTree, (∀ j, j ≠ h - 1 → cf j = none) →
      ∀ k, applyOps b.orchard_nct_ops cf k = if k = h then some ncts.orchard else none) := by
  have hne : ¬h = 0 := by omega
  unfold DiskWriteBatch.prepare_note_commitment_batch DiskWriteBatch.prepare_history_batch
    heightPred at heq
  simp only [if_neg hne] at heq
  cases history_tree with
  | none =>
    simp only [Except.ok.injEq] at heq
    subst heq
    refine ⟨rfl, rfl, rfl, rfl, ?_, ?_, ?_⟩ <;>
      · intro cf hcf k
        exact applyOps_supersede h _ cf hcf k
  | some t =>
    simp only [Except.ok.injEq] at heq
    subst heq
    refine ⟨rfl, rfl, rfl, rfl, ?_, ?_, ?_⟩ <;>
      · intro cf hcf k
        exact applyOps_supersede h _ cf hcf k

/-- C1 counterexample to the claim as stated: at height 1 with the empty
(pre-Heartwood) history tree, the built batch deletes the history-tree entry
at height 0 but inserts nothing into the history-tree column family — its
pending operations are exactly `[delete 0]` — so the claim that the batch
inserts all the updated trees keyed by the new height fails for the history
tree. -/
theorem prepare_note_commitment_batch_claim_cex :
    (DiskWriteBatch.empty.prepare_note_commitment_batch 1 ⟨⟨[]⟩, ⟨[]⟩, ⟨[]⟩⟩ none).map
        DiskWriteBatch.history_ops = .ok [CfOp.delete 0] := rfl

/-- Witness for C1 (amended) at height 1 with a non-empty history tree. -/
theorem prepare_note_commitment_batch_supersedes_witness :
    1 ≤ 1 ∧
    DiskWriteBatch.empty.prepare_note_commitment_batch 1 ⟨⟨[2]⟩, ⟨[3]⟩, ⟨[]⟩⟩ (some 5)
        = .ok c1WitnessBatch ∧
    c1WitnessBatch.sprout_nct_ops = [CfOp.delete 0, CfOp.insert 1 ⟨[2]⟩] ∧
    c1WitnessBatch.history_ops = [CfOp.delete 0, CfOp.insert 1 5] :=
  ⟨Nat.le_refl 1, rfl,
    (prepare_note_commitment_batch_supersedes 1 ⟨⟨[2]⟩, ⟨[3]⟩, ⟨[]⟩⟩ (some 5)
      c1WitnessBatch (Nat.le_refl 1) rfl).1,
    (prepare_note_commitment_batch_supersedes 1 ⟨⟨[2]⟩, ⟨[3]⟩, ⟨[]⟩⟩ (some 5)
      c1WitnessBatch (Nat.le_refl 1) rfl).2.2.2.1⟩

/-- C4: once a block has been successfully finalized, preparing and
committing its finalization batches a second time is rejected by the commit
guard and leaves the database — hence its nullifier sets, note-commitment
trees and chain value pool — exactly in its state after the first
finalization, whatever treestate is supplied the second time. -/
theorem finalize_same_block_twice_rejected (db : ZebraDb) (blk : FinalizedBlock)
    (trees trees2 : NoteCommitmentTrees) (ht ht2 : Option HTree)
    (hok : (commit_checked db blk trees ht).2 = .ok ()) :
    (commit_checked (commit_checked db blk trees ht).1 blk trees2 ht2).1
        = (commit_checked db blk trees ht).1 ∧
    (commit_checked (commit_checked db blk trees ht).1 blk trees2 ht2).2
        = .error "block is not the next block to finalize" := by
  by_cases hg : blk.height = next_height db
  · cases hb : build_batch db blk trees ht with
    | error e =>
      exfalso
      unfold commit_checked commit_finalized_block at hok
      rw [if_pos hg, hb] at hok
      simp at hok
    | ok batch =>
      have h1 : commit_checked db blk trees ht
          = ({ applyBatch batch db with finalized_tip_height := some blk.height },
            (.ok () : Except String Unit)) := by
        unfold commit_checked commit_finalized_block
        rw [if_pos hg, hb]
      rw [h1]
      have hne : ¬blk.height = next_height
          ({ applyBatch batch db with finalized_tip_height := some blk.height },
            (.ok () : Except String Unit)).1 := by
        show ¬blk.height = blk.height + 1
        omega
      constructor
      · unfold commit_checked
        rw [if_neg hne]
      · unfold commit_checked
        rw [if_neg hne]
  · exfalso
    unfold commit_checked at hok
    rw [if_neg hg] at hok
    simp at hok

/-- Witness for C4: finalizing the genesis-height block into the empty
database succeeds, and finalizing the same block again is rejected. -/
theorem finalize_same_block_twice_rejected_witness :
    (commit_checked ZebraDb.empty ⟨0, 7, [], ⟨0, 0, 0, 0⟩⟩ ⟨⟨[]⟩, ⟨[]⟩, ⟨[]⟩⟩ none).2
        = .ok () ∧
    (commit_checked
        (commit_checked ZebraDb.empty ⟨0, 7, [], ⟨0, 0, 0, 0⟩⟩ ⟨⟨[]⟩, ⟨[]⟩, ⟨[]⟩⟩ none).1
        ⟨0, 7, [], ⟨0, 0, 0, 0⟩⟩ ⟨⟨[]⟩, ⟨[]⟩, ⟨[]⟩⟩ none).2
        = .error "block is not the next block to finalize" :=
  ⟨rfl,
    (finalize_same_block_twice_rejected ZebraDb.empty ⟨0, 7, [], ⟨0, 0, 0, 0⟩⟩
      ⟨⟨[]⟩, ⟨[]⟩, ⟨[]⟩⟩ ⟨⟨[]⟩, ⟨[]⟩, ⟨[]⟩⟩ none none rfl).2⟩

theorem chainBetter_eq_true_iff (c b : NfChain) : chainBetter c b = true ↔ keyLt b c := by
  unfold chainBetter keyLt
  simp [Bool.or_eq_true, Bool.and_eq_true, decide_eq_true_eq]

theorem foldl_bestStep_some (l : List NfChain) (a : NfChain) :
    ∃ b, l.foldl bestStep (some a) = some b := by
  induction l generalizing a with
  | nil => exact ⟨a, rfl⟩
  | cons c t ih =>
    show ∃ b, t.foldl bestStep (bestStep (some a) c) = some b
    simp only [bestStep]
    by_cases hc : chainBetter c a = true
    · rw [if_pos hc]
      exact ih c
    · rw [if_neg hc]
      exact ih a

theorem foldl_bestStep_mem (l : List NfChain) (acc : Option NfChain) (b : NfChain)
    (h : l.foldl bestStep acc = some b) : b ∈ l ∨ acc = some b := by
  induction l generalizing acc with
  | nil => exact Or.inr h
  | cons c t ih =>
    rcases ih (bestStep acc c) h with hmem | hacc
    · exact Or.inl (List.mem_cons_of_mem c hmem)
    · cases acc with
      | none =>
        simp only [bestStep, Option.some.injEq] at hacc
        subst hacc
        exact Or.inl (List.mem_cons_self _ _)
      | some a =>
        simp only [bestStep] at hacc
        by_cases hc : chainBetter c a = true
        · rw [if_pos hc, Option.some.injEq] at hacc
          subst hacc
          exact Or.inl (List.mem_cons_self _ _)
        · rw [if_neg hc] at hacc
          exact Or.inr hacc

theorem foldl_bestStep_not_lt (l : List NfChain) (acc : Option NfChain) (b : NfChain)
    (h : l.foldl bestStep acc = some b) :
    (∀ c ∈ l, ¬keyLt b c) ∧ ∀ a, acc = some a → ¬keyLt b a := by
  induction l generalizing acc with
  | nil =>
    refine ⟨by simp, ?_⟩
    intro a ha
    rw [show List.foldl bestStep acc [] = acc from rfl] at h
    rw [h, Option.some.injEq] at ha
    subst ha
    unfold keyLt
    omega
  | cons c t ih =>
    obtain ⟨ht1, ht2⟩ := ih (bestStep acc c) h
    have hc : ¬keyLt b c := by
      cases acc with
      | none => exact ht2 c rfl
      | some a =>
        by_cases hca : chainBetter c a = true
        · exact ht2 c (by simp [bestStep, hca])
        · have hba := ht2 a (by simp [bestStep, hca])
          have hac : ¬keyLt a c := fun hl => hca ((chainBetter_eq_true_iff c a).mpr hl)
          intro hbc
          unfold keyLt at hba hac hbc
          omega
    refine ⟨?_, ?_⟩
    · intro x hx
      rcases List.mem_cons.mp hx with hxc | hxt
      · subst hxc
        exact hc
      · exact ht1 x hxt
    · intro a ha
      cases acc with
      | none => exact absurd ha (by simp)
      | some a2 =>
        rw [Option.some.injEq] at ha
        subst ha
        by_cases hca : chainBetter c a2 = true
        · have hac : keyLt a2 c := (chainBetter_eq_true_iff c a2).mp hca
          intro hba
          refine hc ?_
          unfold keyLt at hac hba ⊢
          omega
        · exact ht2 a2 (by simp [bestStep, hca])

theorem pairwise_tip_hash_eq (l : List NfChain)
    (hd : l.Pairwise fun x y => x.tip_hash ≠ y.tip_hash)
    (a b : NfChain) (ha : a ∈ l) (hb : b ∈ l) (hh : a.tip_hash = b.tip_hash) : a = b := by
  by_contra hne
  have hsymm : Symmetric fun x y : NfChain => x.tip_hash ≠ y.tip_hash :=
    fun x y hxy => Ne.symm hxy
  exact hd.forall hsymm ha hb hne hh

theorem best_chain_nonempty (c : NfChain) (t : List NfChain) :
    ∃ b, best_chain (c :: t) = some b := by
  unfold best_chain
  rw [show (c :: t).foldl bestStep none = t.foldl bestStep (some c) from rfl]
  exact foldl_bestStep_some t c

/-- C3: `best_chain()` returns a chain of maximal cumulative proof-of-work,
and its result is invariant under any reordering of the candidate chains
(the arrival order of blocks), provided distinct chains have distinct tip
hashes — the tie on equal cumulative work is broken deterministically by tip
hash, so repeated runs over the same block set select the same chain. -/
theorem best_chain_highest_work_deterministic (l1 l2 : List NfChain)
    (hperm : l1.Perm l2)
    (hdist : l1.Pairwise fun x y => x.tip_hash ≠ y.tip_hash) :
    (∀ b, best_chain l1 = some b → ∀ c ∈ l1, c.work ≤ b.work) ∧
    best_chain l1 = best_chain l2 := by
  constructor
  · intro b hb c hc
    have hmax := (foldl_bestStep_not_lt l1 none b hb).1 c hc
    unfold keyLt at hmax
    omega
  · cases l1 with
    | nil =>
      have h2 : l2 = [] := List.Perm.eq_nil hperm.symm
      rw [h2]
    | cons c t =>
      obtain ⟨b1, hb1⟩ := best_chain_nonempty c t
      cases hl2 : l2 with
      | nil =>
        exfalso
        have hlen := hperm.length_eq
        rw [hl2] at hlen
        simp at hlen
      | cons c2 t2 =>
        obtain ⟨b2, hb2⟩ := best_chain_nonempty c2 t2
        have hperm2 : (c :: t).Perm (c2 :: t2) := hl2 ▸ hperm
        have hb1f : (c :: t).foldl bestStep none = some b1 := hb1
        have hb2f : (c2 :: t2).foldl bestStep none = some b2 := hb2
        have hmem1 : b1 ∈ c :: t := by
          rcases foldl_bestStep_mem _ _ _ hb1f with hm | hn
          · exact hm
          · exact absurd hn (by simp)
        have hmem2 : b2 ∈ c2 :: t2 := by
          rcases foldl_bestStep_mem _ _ _ hb2f with hm | hn
          · exact hm
          · exact absurd hn (by simp)
        have hb2mem1 : b2 ∈ c :: t := hperm2.mem_iff.mpr hmem2
        have hb1mem2 : b1 ∈ c2 :: t2 := hperm2.mem_iff.mp hmem1
        have h12 : ¬keyLt b1 b2 := (foldl_bestStep_not_lt _ _ _ hb1f).1 b2 hb2mem1
        have h21 : ¬keyLt b2 b1 := (foldl_bestStep_not_lt _ _ _ hb2f).1 b1 hb1mem2
        have hhash : b1.tip_hash = b2.tip_hash := by
          unfold keyLt at h12 h21
          omega
        have hbeq : b1 = b2 := pairwise_tip_hash_eq (c :: t) hdist b1 b2 hmem1 hb2mem1 hhash
        rw [hb1, hb2, hbeq]

/-- Witness for C3 at two concrete two-chain forests that are reorderings of
each other. -/
theorem best_chain_highest_work_deterministic_witness :
    ([⟨1, 5⟩, ⟨2, 7⟩] : List NfChain).Perm [⟨2, 7⟩, ⟨1, 5⟩] ∧
    ([⟨1, 5⟩, ⟨2, 7⟩] : List NfChain).Pairwise (fun x y => x.tip_hash ≠ y.tip_hash) ∧
    ((∀ b, best_chain [⟨1, 5⟩, ⟨2, 7⟩] = some b → ∀ c ∈ ([⟨1, 5⟩, ⟨2, 7⟩] : List NfChain),
        c.work ≤ b.work) ∧
      best_chain [⟨1, 5⟩, ⟨2, 7⟩] = best_chain [⟨2, 7⟩, ⟨1, 5⟩]) :=
  ⟨List.Perm.swap (⟨2, 7⟩ : NfChain) (⟨1, 5⟩ : NfChain) [], by decide,
    best_chain_highest_work_deterministic [⟨1, 5⟩, ⟨2, 7⟩] [⟨2, 7⟩, ⟨1, 5⟩]
      (List.Perm.swap (⟨2, 7⟩ : NfChain) (⟨1, 5⟩ : NfChain) []) (by decide)⟩

end Zebra
